import Mathlib

/-!
Verification of the dependency-tracking storage layer and its external
collaborators from the libosmium repository.

The repository sources under verification are:
* `include/osmium/osm/object_pointer_collection.hpp` — `ObjectPointerCollection`
* `include/osmium/io/gzip_compression.hpp` — `gzip_error`, `GzipCompressor`,
  `GzipDecompressor`
* the unit tests for `osmium::relations::RelationsDatabase` /
  `osmium::ItemStash` (the relation dependency tracker).

The implementation of `RelationsDatabase` / `ItemStash` itself is not among
the provided sources — only its unit tests are.  The tracker is therefore
modelled from the specification, constrained at every point where the
repository's unit tests pin down concrete behaviour (the tests are code of
the repository and are authoritative where they speak).
-/

set_option maxRecDepth 4000

deriving instance DecidableEq for Except

/-! ## Relation dependency tracker (RelationsDatabase over ItemStash)

Modelled from the spec: the `RelationsDatabase` / `ItemStash` implementation
is missing from the provided sources; only its unit tests are present.  The
model below follows the spec's data model (§3, §4.2) and is checked against
the behaviour the repository's unit tests require:

* a record holds a relation id and an ordered member list plus a mutable
  missing-members counter starting at zero;
* `add` assigns the next zero-based position, positions are never reused;
* handle operations on a removed slot fail hard (UseAfterRemove),
  decrementing a zero counter fails hard (CounterUnderflow), positional
  access beyond any assigned position fails hard (OutOfRangeIndex);
* the backing store is never shrunk by `remove`.

Note on `size()`: the spec's sentence "size() == adds − removes" conflicts
with the repository's own test, which requires `rdb.size() == 3` after three
adds and one remove.  The model follows the test: `size` counts all entries
ever added. -/

/-- Member kind of an OSM relation member (point / line / relation). -/
inductive MemberKind where
  | point
  | line
  | relation
deriving DecidableEq, Repr

/-- One member of a relation: kind, referenced id and role text. -/
structure Member where
  kind : MemberKind
  ref : Int
  role : String
deriving DecidableEq, Repr

/-- A relation record: identifier and ordered member list. -/
structure Relation where
  relId : Int
  members : List Member
deriving DecidableEq, Repr

/-- Error taxonomy of the storage layer (spec §7). -/
inductive TrackerError where
  | useAfterRemove
  | outOfRangeIndex
  | counterUnderflow
deriving DecidableEq, Repr

/-- One stored tracker entry: the deep-copied relation record, its mutable
missing-members counter, and whether the slot is still live. -/
structure Entry where
  rel : Relation
  missing : Nat
  live : Bool
deriving DecidableEq, Repr

/-- Modelled from the spec: the relation dependency tracker
(`osmium::relations::RelationsDatabase` composed over `osmium::ItemStash`),
whose implementation is not among the provided sources.  `elements` is
position-indexed (position = zero-based add order); removal marks an entry
dead but never deletes it from the vector, so positions are permanent. -/
structure RelationsDatabase where
  elements : List Entry
deriving DecidableEq, Repr

/-- A freshly constructed, empty tracker. -/
def emptyDB : RelationsDatabase := ⟨[]⟩

namespace RelationsDatabase

/-- Modelled from the spec and pinned by the repository test: `size()` counts
all entries ever added (the test requires `size() == 3` after three adds and
one remove). -/
def size (db : RelationsDatabase) : Nat :=
  db.elements.length

/-- Raw positional access to the entry vector. -/
def entryAt (db : RelationsDatabase) (p : Nat) : Option Entry :=
  db.elements[p]?

/-- Whether position `p` currently holds a live (not removed) entry. -/
def liveAt (db : RelationsDatabase) (p : Nat) : Bool :=
  match db.elements[p]? with
  | some e => e.live
  | none => false

/-- Dereference the handle / positional access `db[p]` followed by `operator*`:
yields the stored relation record, or fails hard on a removed or
never-assigned position (spec §4.2, §7). -/
def derefAt (db : RelationsDatabase) (p : Nat) : Except TrackerError Relation :=
  match db.elements[p]? with
  | none => .error .outOfRangeIndex
  | some e => if e.live then .ok e.rel else .error .useAfterRemove

/-- Current missing-members counter of the entry at position `p`. -/
def missingAt (db : RelationsDatabase) (p : Nat) : Except TrackerError Nat :=
  match db.elements[p]? with
  | none => .error .outOfRangeIndex
  | some e => if e.live then .ok e.missing else .error .useAfterRemove

/-- Modelled from the spec: `add(relation)` deep-copies the record into the
next slot; the new entry's missing-members counter starts at zero and its
position is the zero-based count of entries ever added before it.  Returns
the new tracker state and the handle's position. -/
def add (db : RelationsDatabase) (r : Relation) : RelationsDatabase × Nat :=
  (⟨db.elements ++ [⟨r, 0, true⟩]⟩, db.elements.length)

/-- Modelled from the spec: `handle.set_members(n)` sets the missing-members
counter to `n`; fails hard on a removed or never-assigned position. -/
def set_members (db : RelationsDatabase) (p : Nat) (n : Nat) :
    Except TrackerError RelationsDatabase :=
  match db.elements[p]? with
  | none => .error .outOfRangeIndex
  | some e =>
    if e.live then .ok ⟨db.elements.set p { e with missing := n }⟩
    else .error .useAfterRemove

/-- Modelled from the spec: `handle.increment_members()` adds one to the
missing-members counter; fails hard on a removed or never-assigned
position. -/
def increment_members (db : RelationsDatabase) (p : Nat) :
    Except TrackerError RelationsDatabase :=
  match db.elements[p]? with
  | none => .error .outOfRangeIndex
  | some e =>
    if e.live then .ok ⟨db.elements.set p { e with missing := e.missing + 1 }⟩
    else .error .useAfterRemove

/-- Modelled from the spec: `handle.decrement_members()` subtracts one from
the missing-members counter; decrementing a zero counter is a contract
violation and fails hard (CounterUnderflow). -/
def decrement_members (db : RelationsDatabase) (p : Nat) :
    Except TrackerError RelationsDatabase :=
  match db.elements[p]? with
  | none => .error .outOfRangeIndex
  | some e =>
    if e.live then
      match e.missing with
      | 0 => .error .counterUnderflow
      | m + 1 => .ok ⟨db.elements.set p { e with missing := m }⟩
    else .error .useAfterRemove

/-- Modelled from the spec: `handle.has_all_members()` is true iff the
missing-members counter equals zero. -/
def has_all_members (db : RelationsDatabase) (p : Nat) :
    Except TrackerError Bool :=
  (db.missingAt p).map (fun m => m == 0)

/-- Modelled from the spec: `handle.remove()` (also `db[pos].remove()`) marks
the slot free; the backing vector is not shrunk and the position is never
reused.  Removing an already-removed or never-assigned position fails
hard. -/
def remove (db : RelationsDatabase) (p : Nat) :
    Except TrackerError RelationsDatabase :=
  match db.elements[p]? with
  | none => .error .outOfRangeIndex
  | some e =>
    if e.live then .ok ⟨db.elements.set p { e with live := false }⟩
    else .error .useAfterRemove

/-- Modelled from the spec: `get_relations()` returns references to exactly
the live relation records, in ascending position order, recomputed fresh on
every call by scanning the whole entry vector. -/
def get_relations (db : RelationsDatabase) : List Relation :=
  db.elements.filterMap (fun e => if e.live then some e.rel else none)

/-- Positions of the live entries, in ascending order. -/
def livePositions (db : RelationsDatabase) : List Nat :=
  (List.range db.elements.length).filter (fun p => db.liveAt p)

/-- Bytes of backing storage devoted to one stored entry: the 8-byte id, the
8-byte counter, and per member one kind byte, an 8-byte ref and the role
text. -/
def entryBytes (e : Entry) : Nat :=
  16 + (e.rel.members.foldl (fun a m => a + 9 + m.role.length) 0)

/-- Modelled from the spec: `used_memory()` reports the bytes currently
occupied by backing storage.  The store is never shrunk by `remove`, so
every slot ever allocated counts; an empty tracker occupies no backing
storage. -/
def used_memory (db : RelationsDatabase) : Nat :=
  db.elements.foldl (fun a e => a + entryBytes e) 0

end RelationsDatabase

/-- One operation of a tracker usage trace. -/
inductive Op where
  | addR (r : Relation)
  | removeR (p : Nat)
  | setMembersR (p : Nat) (n : Nat)
  | incR (p : Nat)
  | decR (p : Nat)
deriving DecidableEq, Repr

/-- Apply a single operation to the tracker. -/
def applyOp (db : RelationsDatabase) : Op → Except TrackerError RelationsDatabase
  | .addR r => .ok (db.add r).1
  | .removeR p => db.remove p
  | .setMembersR p n => db.set_members p n
  | .incR p => db.increment_members p
  | .decR p => db.decrement_members p

/-- Run a trace of operations; the first hard failure aborts the run. -/
def execOps : List Op → RelationsDatabase → Except TrackerError RelationsDatabase
  | [], db => .ok db
  | op :: ops, db =>
    match applyOp db op with
    | .ok db2 => execOps ops db2
    | .error e => .error e

/-- Number of `add` operations in a trace. -/
def countAdds : List Op → Nat
  | [] => 0
  | .addR _ :: ops => countAdds ops + 1
  | _ :: ops => countAdds ops

/-- Number of `remove` operations in a trace. -/
def countRemoves : List Op → Nat
  | [] => 0
  | .removeR _ :: ops => countRemoves ops + 1
  | _ :: ops => countRemoves ops

/-! ## Size bookkeeping lemmas -/

theorem RelationsDatabase.remove_size {db db' : RelationsDatabase} {p : Nat}
    (h : db.remove p = .ok db') : db'.size = db.size := by
  unfold RelationsDatabase.remove at h
  split at h
  · exact absurd h (by simp)
  · split at h
    · cases h
      simp [RelationsDatabase.size]
    · exact absurd h (by simp)

theorem RelationsDatabase.set_members_size {db db' : RelationsDatabase} {p n : Nat}
    (h : db.set_members p n = .ok db') : db'.size = db.size := by
  unfold RelationsDatabase.set_members at h
  split at h
  · exact absurd h (by simp)
  · split at h
    · cases h
      simp [RelationsDatabase.size]
    · exact absurd h (by simp)

theorem RelationsDatabase.increment_members_size {db db' : RelationsDatabase} {p : Nat}
    (h : db.increment_members p = .ok db') : db'.size = db.size := by
  unfold RelationsDatabase.increment_members at h
  split at h
  · exact absurd h (by simp)
  · split at h
    · cases h
      simp [RelationsDatabase.size]
    · exact absurd h (by simp)

theorem RelationsDatabase.decrement_members_size {db db' : RelationsDatabase} {p : Nat}
    (h : db.decrement_members p = .ok db') : db'.size = db.size := by
  unfold RelationsDatabase.decrement_members at h
  split at h
  · exact absurd h (by simp)
  · split at h
    · split at h
      · exact absurd h (by simp)
      · cases h
        simp [RelationsDatabase.size]
    · exact absurd h (by simp)

theorem RelationsDatabase.add_size (db : RelationsDatabase) (r : Relation) :
    (db.add r).1.size = db.size + 1 := by
  simp [RelationsDatabase.add, RelationsDatabase.size]

/-- Number of entries one operation appends to the entry vector. -/
def opSizeDelta : Op → Nat
  | .addR _ => 1
  | _ => 0

theorem applyOp_size {db db' : RelationsDatabase} {op : Op}
    (h : applyOp db op = .ok db') :
    db'.size = db.size + opSizeDelta op := by
  cases op with
  | addR r =>
    unfold applyOp at h
    cases h
    exact db.add_size r
  | removeR p => simpa [opSizeDelta] using RelationsDatabase.remove_size h
  | setMembersR p n => simpa [opSizeDelta] using RelationsDatabase.set_members_size h
  | incR p => simpa [opSizeDelta] using RelationsDatabase.increment_members_size h
  | decR p => simpa [opSizeDelta] using RelationsDatabase.decrement_members_size h

theorem execOps_size :
    ∀ (ops : List Op) (db s : RelationsDatabase),
      execOps ops db = .ok s → s.size = db.size + countAdds ops
  | [], db, s, h => by
    unfold execOps at h
    cases h
    simp [countAdds]
  | op :: ops, db, s, h => by
    unfold execOps at h
    cases hop : applyOp db op with
    | error e => rw [hop] at h; exact absurd h (by simp)
    | ok db2 =>
      rw [hop] at h
      have ih := execOps_size ops db2 s h
      have hsz := applyOp_size hop
      cases op with
      | addR r => rw [ih, hsz]; simp [opSizeDelta, countAdds]; omega
      | removeR p => rw [ih, hsz]; simp [opSizeDelta, countAdds]
      | setMembersR p n => rw [ih, hsz]; simp [opSizeDelta, countAdds]
      | incR p => rw [ih, hsz]; simp [opSizeDelta, countAdds]
      | decR p => rw [ih, hsz]; simp [opSizeDelta, countAdds]

/-! ## Claim C1 -/

/-- Relation record with id `i` and `k` way-members with role "outer", as in
the repository's test fixture. -/
def testRel (i : Int) (k : Nat) : Relation :=
  ⟨i, List.replicate k ⟨.line, 1, "outer"⟩⟩

/-- The repository test's scenario: add relations 1, 2, 3 then remove the
entry at position 0 (relation 1). -/
def testTraceOps : List Op :=
  [.addR (testRel 1 1), .addR (testRel 2 2), .addR (testRel 3 3), .removeR 0]

/-- C1 counterexample: on the repository test's own scenario — three adds
followed by one remove — `size()` reports 3 (exactly as the repository's
test `REQUIRE(rdb.size() == 3)` demands), while the claim's
"adds − removes" would be 2.  So "size() equals adds minus removes" is
false on the code. -/
theorem C1_counterexample :
    (execOps testTraceOps emptyDB).map RelationsDatabase.size = .ok 3 ∧
    countAdds testTraceOps = 3 ∧ countRemoves testTraceOps = 1 ∧
    (3 : Nat) ≠ 3 - 1 := by
  refine ⟨by rfl, by rfl, by rfl, by decide⟩

/-- C1 (amended): after any successfully executed sequence of tracker
operations, `size()` equals the number of `add()` calls performed so far;
removes never decrease it (the entry vector is never shrunk). -/
theorem C1_size_counts_adds (ops : List Op) (s : RelationsDatabase)
    (h : execOps ops emptyDB = .ok s) : s.size = countAdds ops := by
  have hs := execOps_size ops emptyDB s h
  simpa [emptyDB, RelationsDatabase.size] using hs

/-- C1 witness: the amended statement applied to the repository test's
concrete trace. -/
theorem C1_size_counts_adds_witness :
    (⟨[⟨testRel 1 1, 0, false⟩, ⟨testRel 2 2, 0, true⟩, ⟨testRel 3 3, 0, true⟩]⟩ :
      RelationsDatabase).size = countAdds testTraceOps :=
  C1_size_counts_adds testTraceOps
    ⟨[⟨testRel 1 1, 0, false⟩, ⟨testRel 2 2, 0, true⟩, ⟨testRel 3 3, 0, true⟩]⟩
    (by rfl)

/-! ## Claim C2 -/

/-- C2: a handle returned by `add()` has position equal to the zero-based
count of entries ever added before it (= number of prior `add` calls, since
positions are assigned sequentially and never reused), and indexing the
tracker at that position immediately after the add dereferences to the
identical stored record (with a fresh zero counter and live flag). -/
theorem C2_add_position (ops : List Op) (s : RelationsDatabase) (r : Relation)
    (h : execOps ops emptyDB = .ok s) :
    (s.add r).2 = countAdds ops ∧
    (s.add r).1.derefAt (s.add r).2 = .ok r ∧
    (s.add r).1.entryAt (s.add r).2 = some ⟨r, 0, true⟩ := by
  refine ⟨?_, ?_, ?_⟩
  · have hs := execOps_size ops emptyDB s h
    simpa [emptyDB, RelationsDatabase.size, RelationsDatabase.add] using hs
  · simp [RelationsDatabase.add, RelationsDatabase.derefAt]
  · simp [RelationsDatabase.add, RelationsDatabase.entryAt]

/-- C2 witness: the property at a concrete state reached by the test trace. -/
theorem C2_add_position_witness :
    ((⟨[⟨testRel 1 1, 0, false⟩, ⟨testRel 2 2, 0, true⟩, ⟨testRel 3 3, 0, true⟩]⟩ :
        RelationsDatabase).add (testRel 4 1)).2 = countAdds testTraceOps ∧
    (((⟨[⟨testRel 1 1, 0, false⟩, ⟨testRel 2 2, 0, true⟩, ⟨testRel 3 3, 0, true⟩]⟩ :
        RelationsDatabase).add (testRel 4 1)).1.derefAt 3) = .ok (testRel 4 1) := by
  have h := C2_add_position testTraceOps
      ⟨[⟨testRel 1 1, 0, false⟩, ⟨testRel 2 2, 0, true⟩, ⟨testRel 3 3, 0, true⟩]⟩
      (testRel 4 1) (by rfl)
  exact ⟨h.1, h.2.1⟩

/-! ## Claim C3 -/

theorem getElem?_lt {α : Type} {l : List α} {i : Nat} {a : α}
    (h : l[i]? = some a) : i < l.length := by
  cases Nat.lt_or_ge i l.length with
  | inl h' => exact h'
  | inr h' => rw [List.getElem?_eq_none h'] at h; cases h

theorem RelationsDatabase.set_members_missingAt {db db' : RelationsDatabase}
    {p n : Nat} (h : db.set_members p n = .ok db') :
    db'.missingAt p = .ok n := by
  unfold RelationsDatabase.set_members at h
  unfold RelationsDatabase.missingAt
  split at h
  · exact absurd h (by simp)
  · next e hq =>
    split at h
    · next hl =>
      cases h
      have hlt : p < db.elements.length := getElem?_lt hq
      simp [List.getElem?_set, hlt, hl]
    · exact absurd h (by simp)

theorem RelationsDatabase.increment_missingAt {db db' : RelationsDatabase}
    {p m : Nat} (h : db.increment_members p = .ok db')
    (hm : db.missingAt p = .ok m) : db'.missingAt p = .ok (m + 1) := by
  unfold RelationsDatabase.increment_members at h
  unfold RelationsDatabase.missingAt at hm ⊢
  split at h
  · exact absurd h (by simp)
  · next e hq =>
    rw [hq] at hm
    simp only [] at hm
    split at h
    · next hl =>
      rw [if_pos hl] at hm
      cases h
      cases hm
      have hlt : p < db.elements.length := getElem?_lt hq
      simp [List.getElem?_set, hlt, hl]
    · next hl =>
      rw [if_neg hl] at hm
      exact absurd hm (by simp)

theorem RelationsDatabase.decrement_missingAt {db db' : RelationsDatabase}
    {p m : Nat} (h : db.decrement_members p = .ok db')
    (hm : db.missingAt p = .ok m) :
    ∃ k, m = k + 1 ∧ db'.missingAt p = .ok k := by
  unfold RelationsDatabase.decrement_members at h
  unfold RelationsDatabase.missingAt at hm ⊢
  split at h
  · exact absurd h (by simp)
  · next e hq =>
    rw [hq] at hm
    simp only [] at hm
    split at h
    · next hl =>
      rw [if_pos hl] at hm
      split at h
      · exact absurd h (by simp)
      · next k hmiss =>
        cases h
        cases hm
        have hlt : p < db.elements.length := getElem?_lt hq
        refine ⟨k, hmiss, ?_⟩
        simp [List.getElem?_set, hlt, hl]
    · next hl =>
      rw [if_neg hl] at hm
      exact absurd hm (by simp)

/-- One counter operation on a fixed handle. -/
inductive COp where
  | inc
  | dec
deriving DecidableEq, Repr

/-- Interpret a counter operation as a tracker operation at position `p`. -/
def COp.toOp (p : Nat) : COp → Op
  | .inc => .incR p
  | .dec => .decR p

/-- Number of `increment_members()` calls in a counter trace. -/
def countInc : List COp → Nat
  | [] => 0
  | .inc :: l => countInc l + 1
  | .dec :: l => countInc l

/-- Number of `decrement_members()` calls in a counter trace. -/
def countDec : List COp → Nat
  | [] => 0
  | .dec :: l => countDec l + 1
  | .inc :: l => countDec l

theorem execOps_counter :
    ∀ (cops : List COp) (p : Nat) (db db2 : RelationsDatabase) (m : Nat),
      db.missingAt p = .ok m →
      execOps (cops.map (COp.toOp p)) db = .ok db2 →
      ∃ m2, db2.missingAt p = .ok m2 ∧ m2 + countDec cops = m + countInc cops
  | [], p, db, db2, m, hm, h => by
    unfold execOps at h
    simp at h
    cases h
    exact ⟨m, hm, rfl⟩
  | c :: cops, p, db, db2, m, hm, h => by
    rw [List.map_cons] at h
    unfold execOps at h
    cases hop : applyOp db (c.toOp p) with
    | error e => rw [hop] at h; exact absurd h (by simp)
    | ok dbx =>
      rw [hop] at h
      cases c with
      | inc =>
        have hx : dbx.missingAt p = .ok (m + 1) :=
          RelationsDatabase.increment_missingAt hop hm
        obtain ⟨m2, hm2, heq⟩ := execOps_counter cops p dbx db2 (m + 1) hx h
        refine ⟨m2, hm2, ?_⟩
        simp [countInc, countDec] at heq ⊢
        omega
      | dec =>
        obtain ⟨k, hk, hx⟩ := RelationsDatabase.decrement_missingAt hop hm
        obtain ⟨m2, hm2, heq⟩ := execOps_counter cops p dbx db2 k hx h
        refine ⟨m2, hm2, ?_⟩
        simp [countInc, countDec] at heq ⊢
        omega

/-- C3: the missing-members counter of a freshly added entry starts at zero;
and after `set_members(n)` followed by any successfully executed interleaving
of `i` `increment_members()` and `d` `decrement_members()` calls (success
means the counter was never decremented at zero), `has_all_members()` is
true exactly when `d = n + i`, i.e. exactly when the counter is zero. -/
theorem C3_counter_semantics (db : RelationsDatabase) (r : Relation)
    (p n : Nat) (db1 db2 : RelationsDatabase) (cops : List COp)
    (h1 : db.set_members p n = .ok db1)
    (h2 : execOps (cops.map (COp.toOp p)) db1 = .ok db2) :
    ((db.add r).1.missingAt (db.add r).2 = .ok 0) ∧
    (db2.has_all_members p = .ok true ↔ countDec cops = n + countInc cops) := by
  constructor
  · simp [RelationsDatabase.add, RelationsDatabase.missingAt]
  · have hm1 : db1.missingAt p = .ok n :=
      RelationsDatabase.set_members_missingAt h1
    obtain ⟨m2, hm2, heq⟩ := execOps_counter cops p db1 db2 n hm1 h2
    unfold RelationsDatabase.has_all_members
    rw [hm2]
    constructor
    · intro hok
      simp [Except.map] at hok
      omega
    · intro hd
      have : m2 = 0 := by omega
      simp [Except.map, this]

/-- Concrete single-entry tracker used by the C3 witness. -/
def dbW0 : RelationsDatabase := ⟨[⟨testRel 1 1, 0, true⟩]⟩

/-- Counter trace of the C3 witness: one increment, three decrements. -/
def copsW : List COp := [.inc, .dec, .dec, .dec]

/-- C3 witness: with `set_members(2)`, one increment and three decrements,
`has_all_members()` is true and `3 = 2 + 1`. -/
theorem C3_counter_semantics_witness :
    ((dbW0.add (testRel 4 1)).1.missingAt (dbW0.add (testRel 4 1)).2 = .ok 0) ∧
    ((⟨[⟨testRel 1 1, 0, true⟩]⟩ : RelationsDatabase).has_all_members 0 = .ok true ↔
      countDec copsW = 2 + countInc copsW) :=
  C3_counter_semantics dbW0 (testRel 4 1) 0 2 ⟨[⟨testRel 1 1, 2, true⟩]⟩
    ⟨[⟨testRel 1 1, 0, true⟩]⟩ copsW (by rfl) (by rfl)

/-! ## Claim C4 -/

/-- Liveness of position `p` read directly off an entry vector. -/
def liveIdx (l : List Entry) (p : Nat) : Bool :=
  match l[p]? with
  | some e => e.live
  | none => false

/-- Live relation record at position `p` read directly off an entry vector. -/
def relIdx (l : List Entry) (p : Nat) : Option Relation :=
  match l[p]? with
  | none => none
  | some e => if e.live then some e.rel else none

theorem liveIdx_eq_liveAt (l : List Entry) (p : Nat) :
    liveIdx l p = RelationsDatabase.liveAt ⟨l⟩ p := rfl

theorem relIdx_eq_toOption (l : List Entry) (p : Nat) :
    relIdx l p = (RelationsDatabase.derefAt ⟨l⟩ p).toOption := by
  unfold relIdx RelationsDatabase.derefAt
  cases l[p]? with
  | none => rfl
  | some e =>
    by_cases hl : e.live
    · simp [hl, Except.toOption]
    · simp [hl, Except.toOption]

theorem gr_aux : ∀ (l : List Entry),
    l.filterMap (fun e => if e.live then some e.rel else none)
      = ((List.range l.length).filter (liveIdx l)).filterMap (relIdx l)
  | [] => rfl
  | e :: es => by
    have hcompL : (liveIdx (e :: es)) ∘ Nat.succ = liveIdx es := by
      funext q
      simp [Function.comp, liveIdx]
    have hcompR : (relIdx (e :: es)) ∘ Nat.succ = relIdx es := by
      funext q
      simp [Function.comp, relIdx]
    have ih := gr_aux es
    have h0 : liveIdx (e :: es) 0 = e.live := by simp [liveIdx]
    have hr0 : relIdx (e :: es) 0 = if e.live then some e.rel else none := by
      simp [relIdx]
    rw [List.length_cons, List.range_succ_eq_map, List.filter_cons, h0,
      List.filter_map, hcompL]
    by_cases hl : e.live
    · rw [if_pos hl]
      have hLHS : (e :: es).filterMap (fun e => if e.live = true then some e.rel else none)
          = e.rel :: es.filterMap (fun e => if e.live = true then some e.rel else none) := by
        simp [hl]
      rw [hLHS, List.filterMap_cons, hr0, if_pos hl, List.filterMap_map, hcompR]
      simp [ih]
    · rw [if_neg hl, List.filterMap_map, hcompR]
      simp [hl, ih]

theorem applyOp_dead_preserved {db db' : RelationsDatabase} {op : Op} {p : Nat}
    {e : Entry} (h : applyOp db op = .ok db') (hp : db.elements[p]? = some e)
    (hd : e.live = false) : db'.elements[p]? = some e := by
  cases op with
  | addR r =>
    have h2 : (db.add r).1 = db' := by simpa [applyOp] using h
    subst h2
    have hlt : p < db.elements.length := getElem?_lt hp
    simp [RelationsDatabase.add, List.getElem?_append, hlt, hp]
  | removeR q =>
    replace h : db.remove q = .ok db' := h
    unfold RelationsDatabase.remove at h
    split at h
    · exact absurd h (by simp)
    · next e2 hq =>
      split at h
      · next hl =>
        cases h
        by_cases hpq : q = p
        · subst hpq
          rw [hq] at hp
          cases hp
          exact absurd hl (by simp [hd])
        · simp [List.getElem?_set, hpq, hp]
      · exact absurd h (by simp)
  | setMembersR q n =>
    replace h : db.set_members q n = .ok db' := h
    unfold RelationsDatabase.set_members at h
    split at h
    · exact absurd h (by simp)
    · next e2 hq =>
      split at h
      · next hl =>
        cases h
        by_cases hpq : q = p
        · subst hpq
          rw [hq] at hp
          cases hp
          exact absurd hl (by simp [hd])
        · simp [List.getElem?_set, hpq, hp]
      · exact absurd h (by simp)
  | incR q =>
    replace h : db.increment_members q = .ok db' := h
    unfold RelationsDatabase.increment_members at h
    split at h
    · exact absurd h (by simp)
    · next e2 hq =>
      split at h
      · next hl =>
        cases h
        by_cases hpq : q = p
        · subst hpq
          rw [hq] at hp
          cases hp
          exact absurd hl (by simp [hd])
        · simp [List.getElem?_set, hpq, hp]
      · exact absurd h (by simp)
  | decR q =>
    replace h : db.decrement_members q = .ok db' := h
    unfold RelationsDatabase.decrement_members at h
    split at h
    · exact absurd h (by simp)
    · next e2 hq =>
      split at h
      · next hl =>
        split at h
        · exact absurd h (by simp)
        · next k hk =>
          cases h
          by_cases hpq : q = p
          · subst hpq
            rw [hq] at hp
            cases hp
            exact absurd hl (by simp [hd])
          · simp [List.getElem?_set, hpq, hp]
      · exact absurd h (by simp)

theorem execOps_dead_preserved :
    ∀ (ops : List Op) (db s : RelationsDatabase) (p : Nat) (e : Entry),
      db.elements[p]? = some e → e.live = false →
      execOps ops db = .ok s → s.elements[p]? = some e
  | [], db, s, p, e, hp, hd, h => by
    unfold execOps at h
    cases h
    exact hp
  | op :: ops, db, s, p, e, hp, hd, h => by
    unfold execOps at h
    cases hop : applyOp db op with
    | error er => rw [hop] at h; exact absurd h (by simp)
    | ok db2 =>
      rw [hop] at h
      exact execOps_dead_preserved ops db2 s p e
        (applyOp_dead_preserved hop hp hd) hd h

theorem RelationsDatabase.remove_dead {db db' : RelationsDatabase} {p : Nat}
    (h : db.remove p = .ok db') :
    ∃ e, db'.elements[p]? = some e ∧ e.live = false := by
  unfold RelationsDatabase.remove at h
  split at h
  · exact absurd h (by simp)
  · next e hq =>
    split at h
    · next hl =>
      cases h
      have hlt : p < db.elements.length := getElem?_lt hq
      exact ⟨{ e with live := false }, by simp [List.getElem?_set, hlt], rfl⟩
    · exact absurd h (by simp)

/-- C4: `get_relations()` returns exactly the live entries, in ascending
position order (it equals the in-order scan of the live positions,
whose list is strictly increasing); and once an entry is removed — via its
handle or via `db[pos].remove()` — its position is live in no subsequently
reachable state, so it is absent from every subsequent `get_relations()`
result.  Two calls with no intervening mutation agree because
`get_relations` is a pure recomputation from the current state. -/
theorem C4_get_relations_live_ordered (db db' s : RelationsDatabase)
    (p : Nat) (ops : List Op)
    (h1 : db.remove p = .ok db') (h2 : execOps ops db' = .ok s) :
    (db.get_relations =
      db.livePositions.filterMap (fun q => (db.derefAt q).toOption)) ∧
    db.livePositions.Pairwise (· < ·) ∧
    p ∉ s.livePositions := by
  refine ⟨?_, ?_, ?_⟩
  · have h := gr_aux db.elements
    rw [funext (relIdx_eq_toOption db.elements)] at h
    unfold RelationsDatabase.get_relations RelationsDatabase.livePositions
    have hl : (fun q => liveIdx db.elements q) = fun q => db.liveAt q := rfl
    rw [← hl]
    exact h
  · exact (List.pairwise_lt_range _).filter _
  · intro hmem
    obtain ⟨e, hpe, hdead⟩ := RelationsDatabase.remove_dead h1
    have hs := execOps_dead_preserved ops db' s p e hpe hdead h2
    unfold RelationsDatabase.livePositions at hmem
    have hlive : s.liveAt p = true := (List.mem_filter.mp hmem).2
    unfold RelationsDatabase.liveAt at hlive
    rw [hs] at hlive
    simp [hdead] at hlive

/-- C4 witness: the repository test's scenario — after removing position 0,
`get_relations` equals the live-position scan, positions are ascending, and
position 0 stays gone after a further remove of position 1. -/
theorem C4_get_relations_live_ordered_witness :
    ((⟨[⟨testRel 1 1, 0, true⟩, ⟨testRel 2 2, 0, true⟩, ⟨testRel 3 3, 0, true⟩]⟩ :
        RelationsDatabase).get_relations =
      (⟨[⟨testRel 1 1, 0, true⟩, ⟨testRel 2 2, 0, true⟩, ⟨testRel 3 3, 0, true⟩]⟩ :
        RelationsDatabase).livePositions.filterMap
        (fun q => ((⟨[⟨testRel 1 1, 0, true⟩, ⟨testRel 2 2, 0, true⟩,
          ⟨testRel 3 3, 0, true⟩]⟩ : RelationsDatabase).derefAt q).toOption)) ∧
    (⟨[⟨testRel 1 1, 0, true⟩, ⟨testRel 2 2, 0, true⟩, ⟨testRel 3 3, 0, true⟩]⟩ :
        RelationsDatabase).livePositions.Pairwise (· < ·) ∧
    0 ∉ (⟨[⟨testRel 1 1, 0, false⟩, ⟨testRel 2 2, 0, false⟩, ⟨testRel 3 3, 0, true⟩]⟩ :
        RelationsDatabase).livePositions :=
  C4_get_relations_live_ordered
    ⟨[⟨testRel 1 1, 0, true⟩, ⟨testRel 2 2, 0, true⟩, ⟨testRel 3 3, 0, true⟩]⟩
    ⟨[⟨testRel 1 1, 0, false⟩, ⟨testRel 2 2, 0, true⟩, ⟨testRel 3 3, 0, true⟩]⟩
    ⟨[⟨testRel 1 1, 0, false⟩, ⟨testRel 2 2, 0, false⟩, ⟨testRel 3 3, 0, true⟩]⟩
    0 [.removeR 1] (by rfl) (by rfl)

/-! ## Claim C5 -/

/-- C5: immediately after constructing an empty tracker, `used_memory()` is
below 100 bytes — the empty tracker occupies no backing storage, so
construction performs no eager bulk allocation. -/
theorem C5_used_memory_empty : RelationsDatabase.used_memory emptyDB < 100 := by
  decide

/-! ## Claim C6 -/

theorem RelationsDatabase.dead_deref {db : RelationsDatabase} {p : Nat}
    {e : Entry} (hpe : db.elements[p]? = some e) (hd : e.live = false) :
    db.derefAt p = .error .useAfterRemove := by
  unfold RelationsDatabase.derefAt
  rw [hpe]
  simp [hd]

theorem RelationsDatabase.dead_set_members {db : RelationsDatabase}
    {p n : Nat} {e : Entry} (hpe : db.elements[p]? = some e)
    (hd : e.live = false) : db.set_members p n = .error .useAfterRemove := by
  unfold RelationsDatabase.set_members
  rw [hpe]
  simp [hd]

theorem RelationsDatabase.dead_increment {db : RelationsDatabase} {p : Nat}
    {e : Entry} (hpe : db.elements[p]? = some e) (hd : e.live = false) :
    db.increment_members p = .error .useAfterRemove := by
  unfold RelationsDatabase.increment_members
  rw [hpe]
  simp [hd]

theorem RelationsDatabase.dead_decrement {db : RelationsDatabase} {p : Nat}
    {e : Entry} (hpe : db.elements[p]? = some e) (hd : e.live = false) :
    db.decrement_members p = .error .useAfterRemove := by
  unfold RelationsDatabase.decrement_members
  rw [hpe]
  simp [hd]

theorem RelationsDatabase.dead_remove {db : RelationsDatabase} {p : Nat}
    {e : Entry} (hpe : db.elements[p]? = some e) (hd : e.live = false) :
    db.remove p = .error .useAfterRemove := by
  unfold RelationsDatabase.remove
  rw [hpe]
  simp [hd]

theorem RelationsDatabase.zero_decrement {db : RelationsDatabase} {p : Nat}
    (hm : db.missingAt p = .ok 0) :
    db.decrement_members p = .error .counterUnderflow := by
  unfold RelationsDatabase.missingAt at hm
  unfold RelationsDatabase.decrement_members
  split at hm
  · exact absurd hm (by simp)
  · next e hq =>
    split at hm
    · next hl =>
      injection hm with h0
      simp [hl, h0]
    · exact absurd hm (by simp)

/-- C6: once `remove()` has succeeded for a slot, every dereference and every
mutation through that slot's handle fails hard with the UseAfterRemove
condition rather than returning stale data; and `decrement_members()` on an
already-zero counter fails hard with the CounterUnderflow condition rather
than producing a wrong counter value. -/
theorem C6_hard_failures (db db' : RelationsDatabase) (p n : Nat)
    (h : db.remove p = .ok db') :
    db'.derefAt p = .error .useAfterRemove ∧
    db'.set_members p n = .error .useAfterRemove ∧
    db'.increment_members p = .error .useAfterRemove ∧
    db'.decrement_members p = .error .useAfterRemove ∧
    db'.remove p = .error .useAfterRemove ∧
    (∀ db2 : RelationsDatabase, db2.missingAt p = .ok 0 →
      db2.decrement_members p = .error .counterUnderflow) := by
  obtain ⟨e, hpe, hd⟩ := RelationsDatabase.remove_dead h
  exact ⟨RelationsDatabase.dead_deref hpe hd,
    RelationsDatabase.dead_set_members hpe hd,
    RelationsDatabase.dead_increment hpe hd,
    RelationsDatabase.dead_decrement hpe hd,
    RelationsDatabase.dead_remove hpe hd,
    fun db2 hm => RelationsDatabase.zero_decrement hm⟩

/-- C6 witness: the failures at a concrete one-entry tracker whose only
entry has been removed. -/
theorem C6_hard_failures_witness :
    (⟨[⟨testRel 1 1, 0, false⟩]⟩ : RelationsDatabase).derefAt 0 =
      .error .useAfterRemove ∧
    (⟨[⟨testRel 1 1, 0, false⟩]⟩ : RelationsDatabase).set_members 0 5 =
      .error .useAfterRemove ∧
    (⟨[⟨testRel 1 1, 0, false⟩]⟩ : RelationsDatabase).increment_members 0 =
      .error .useAfterRemove ∧
    (⟨[⟨testRel 1 1, 0, false⟩]⟩ : RelationsDatabase).decrement_members 0 =
      .error .useAfterRemove ∧
    (⟨[⟨testRel 1 1, 0, false⟩]⟩ : RelationsDatabase).remove 0 =
      .error .useAfterRemove ∧
    (⟨[⟨testRel 1 1, 0, true⟩]⟩ : RelationsDatabase).decrement_members 0 =
      .error .counterUnderflow := by
  have h := C6_hard_failures ⟨[⟨testRel 1 1, 0, true⟩]⟩ ⟨[⟨testRel 1 1, 0, false⟩]⟩
    0 5 (by rfl)
  exact ⟨h.1, h.2.1, h.2.2.1, h.2.2.2.1, h.2.2.2.2.1,
    h.2.2.2.2.2 ⟨[⟨testRel 1 1, 0, true⟩]⟩ (by rfl)⟩

/-! ## Gzip compression layer (from include/osmium/io/gzip_compression.hpp)

The zlib library calls (`gzwrite`, `gzread`, `gzclose`, `gzerror`) and the
global `errno` are external effects; they are modelled by an environment
record supplying their results.  The compressor / decompressor state is
reduced to the one field the code manipulates: whether `m_gzfile` is
non-null.  An operation returns the successor state together with an
optional thrown `gzip_error` — returning the state even on a throw mirrors
the source, where `m_gzfile = nullptr` is assigned before the close error is
raised. -/

/-- Value of zlib's `Z_OK`. -/
def Z_OK : Int := 0

/-- Value of zlib's `Z_ERRNO` (error in an underlying system call). -/
def Z_ERRNO : Int := -1

/-- Results of the zlib calls and the global `errno` visible to one
operation. -/
structure ZlibEnv where
  gzwrite_result : String → Int
  gzread_result : Int
  gzread_data : String
  gzclose_result : Int
  gzerror_errnum : Int
  gzerror_msg : String
  errno : Int

/-- The exception type `osmium::gzip_error`: message, zlib error code, and
`system_errno`, which the constructor sets to the current `errno` exactly
when the error code is `Z_ERRNO` and to zero otherwise. -/
structure gzip_error where
  what : String
  gzip_error_code : Int
  system_errno : Int
deriving DecidableEq, Repr

/-- The `gzip_error` constructor: `system_errno(error_code == Z_ERRNO ? errno : 0)`. -/
def gzip_error.make (what : String) (error_code : Int) (currentErrno : Int) :
    gzip_error :=
  ⟨what, error_code, if error_code = Z_ERRNO then currentErrno else 0⟩

/-- State of a `GzipCompressor`: whether `m_gzfile` is still non-null. -/
structure GzipCompressor where
  m_gzfile : Bool
deriving DecidableEq, Repr

/-- State of a `GzipDecompressor`: whether `m_gzfile` is still non-null. -/
structure GzipDecompressor where
  m_gzfile : Bool
deriving DecidableEq, Repr

/-- `GzipCompressor::throw_gzip_error(msg, zlib_error)`: when `zlib_error`
is non-zero it is used as the error number and printed; otherwise the error
number and message come from `gzerror`. -/
def GzipCompressor.throw_gzip_error (env : ZlibEnv) (msg : String)
    (zlib_error : Int) : gzip_error :=
  let errnum := if zlib_error ≠ 0 then zlib_error else env.gzerror_errnum
  let error := "gzip compress error: " ++ msg ++ ": " ++
    (if zlib_error ≠ 0 then toString zlib_error else env.gzerror_msg)
  gzip_error.make error errnum env.errno

/-- `GzipDecompressor::throw_gzip_error(msg, zlib_error)`: identical to the
compressor's helper except for the message text. -/
def GzipDecompressor.throw_gzip_error (env : ZlibEnv) (msg : String)
    (zlib_error : Int) : gzip_error :=
  let errnum := if zlib_error ≠ 0 then zlib_error else env.gzerror_errnum
  let error := "gzip decompress error: " ++ msg ++ ": " ++
    (if zlib_error ≠ 0 then toString zlib_error else env.gzerror_msg)
  gzip_error.make error errnum env.errno

/-- `GzipCompressor::write(data)`: nothing happens on an empty string;
otherwise `gzwrite` is called and a return value of zero raises
"write failed" through `throw_gzip_error` with `zlib_error = 0`. -/
def GzipCompressor.write (env : ZlibEnv) (st : GzipCompressor)
    (data : String) : GzipCompressor × Option gzip_error :=
  if data = "" then (st, none)
  else
    let nwrite := env.gzwrite_result data
    if nwrite = 0 then
      (st, some (GzipCompressor.throw_gzip_error env "write failed" 0))
    else (st, none)

/-- `GzipCompressor::close()`: a no-op when `m_gzfile` is already null;
otherwise `gzclose` is called, `m_gzfile` is cleared first, and then a
non-`Z_OK` result raises "close failed" with the result as the zlib error
code. -/
def GzipCompressor.close (env : ZlibEnv) (st : GzipCompressor) :
    GzipCompressor × Option gzip_error :=
  if st.m_gzfile then
    let result := env.gzclose_result
    if result ≠ Z_OK then
      (⟨false⟩, some (GzipCompressor.throw_gzip_error env "close failed" result))
    else (⟨false⟩, none)
  else (st, none)

/-- `GzipCompressor::~GzipCompressor()` calls `close()`; the destroyed
state is the state after that close. -/
def GzipCompressor.dtorState (env : ZlibEnv) (st : GzipCompressor) :
    GzipCompressor :=
  (GzipCompressor.close env st).1

/-- `GzipDecompressor::read()`: `gzread` into a buffer; a negative result
raises "read failed" with `zlib_error = 0`; otherwise the buffer is resized
to the number of bytes read and returned. -/
def GzipDecompressor.read (env : ZlibEnv) (st : GzipDecompressor) :
    GzipDecompressor × String × Option gzip_error :=
  let nread := env.gzread_result
  if nread < 0 then
    (st, "", some (GzipDecompressor.throw_gzip_error env "read failed" 0))
  else (st, env.gzread_data.take nread.toNat, none)

/-- `GzipDecompressor::close()`: identical logic to the compressor's
close. -/
def GzipDecompressor.close (env : ZlibEnv) (st : GzipDecompressor) :
    GzipDecompressor × Option gzip_error :=
  if st.m_gzfile then
    let result := env.gzclose_result
    if result ≠ Z_OK then
      (⟨false⟩, some (GzipDecompressor.throw_gzip_error env "close failed" result))
    else (⟨false⟩, none)
  else (st, none)

/-- `GzipDecompressor::~GzipDecompressor()` calls `close()`. -/
def GzipDecompressor.dtorState (env : ZlibEnv) (st : GzipDecompressor) :
    GzipDecompressor :=
  (GzipDecompressor.close env st).1

/-! ## Claim C7 -/

/-- C7: every failure of the gzip compressor or decompressor surfaces as a
`gzip_error` carrying the zlib library error code (for a failed write/read
the code reported by `gzerror`, for a failed close the `gzclose` return
value), and its `system_errno` field equals the underlying system `errno`
exactly when the library error code is `Z_ERRNO`, and is zero otherwise. -/
theorem C7_gzip_error_fields (env : ZlibEnv) (stc : GzipCompressor)
    (std : GzipDecompressor) (data : String) :
    (∀ e, (GzipCompressor.write env stc data).2 = some e →
      e.gzip_error_code = env.gzerror_errnum ∧
      e.system_errno = if e.gzip_error_code = Z_ERRNO then env.errno else 0) ∧
    (∀ e, (GzipCompressor.close env stc).2 = some e →
      e.gzip_error_code = env.gzclose_result ∧
      e.system_errno = if e.gzip_error_code = Z_ERRNO then env.errno else 0) ∧
    (∀ e, (GzipDecompressor.read env std).2.2 = some e →
      e.gzip_error_code = env.gzerror_errnum ∧
      e.system_errno = if e.gzip_error_code = Z_ERRNO then env.errno else 0) ∧
    (∀ e, (GzipDecompressor.close env std).2 = some e →
      e.gzip_error_code = env.gzclose_result ∧
      e.system_errno = if e.gzip_error_code = Z_ERRNO then env.errno else 0) := by
  refine ⟨?_, ?_, ?_, ?_⟩
  · intro e he
    unfold GzipCompressor.write at he
    split at he
    · exact absurd he (by simp)
    · dsimp only at he
      split at he
      · simp at he
        subst he
        simp [GzipCompressor.throw_gzip_error, gzip_error.make]
      · exact absurd he (by simp)
  · intro e he
    unfold GzipCompressor.close at he
    split at he
    · dsimp only at he
      split at he
      · next hr =>
        simp at he
        subst he
        have hr0 : env.gzclose_result ≠ 0 := by simpa [Z_OK] using hr
        simp [GzipCompressor.throw_gzip_error, gzip_error.make, hr0]
      · exact absurd he (by simp)
    · exact absurd he (by simp)
  · intro e he
    unfold GzipDecompressor.read at he
    dsimp only at he
    split at he
    · simp at he
      subst he
      simp [GzipDecompressor.throw_gzip_error, gzip_error.make]
    · exact absurd he (by simp)
  · intro e he
    unfold GzipDecompressor.close at he
    split at he
    · dsimp only at he
      split at he
      · next hr =>
        simp at he
        subst he
        have hr0 : env.gzclose_result ≠ 0 := by simpa [Z_OK] using hr
        simp [GzipDecompressor.throw_gzip_error, gzip_error.make, hr0]
      · exact absurd he (by simp)
    · exact absurd he (by simp)

/-- Concrete zlib environment for witnesses: every call fails with
`Z_ERRNO` and the current `errno` is 7. -/
def envW : ZlibEnv :=
  { gzwrite_result := fun _ => 0
    gzread_result := -1
    gzread_data := ""
    gzclose_result := -1
    gzerror_errnum := -1
    gzerror_msg := "system error"
    errno := 7 }

/-- C7 witness: the field properties of the four concretely raised errors. -/
theorem C7_gzip_error_fields_witness :
    ((GzipCompressor.throw_gzip_error envW "write failed" 0).gzip_error_code =
        envW.gzerror_errnum ∧
      (GzipCompressor.throw_gzip_error envW "write failed" 0).system_errno =
        if (GzipCompressor.throw_gzip_error envW "write failed" 0).gzip_error_code =
          Z_ERRNO then envW.errno else 0) ∧
    ((GzipCompressor.throw_gzip_error envW "close failed" (-1)).gzip_error_code =
        envW.gzclose_result ∧
      (GzipCompressor.throw_gzip_error envW "close failed" (-1)).system_errno =
        if (GzipCompressor.throw_gzip_error envW "close failed" (-1)).gzip_error_code =
          Z_ERRNO then envW.errno else 0) ∧
    ((GzipDecompressor.throw_gzip_error envW "read failed" 0).gzip_error_code =
        envW.gzerror_errnum ∧
      (GzipDecompressor.throw_gzip_error envW "read failed" 0).system_errno =
        if (GzipDecompressor.throw_gzip_error envW "read failed" 0).gzip_error_code =
          Z_ERRNO then envW.errno else 0) ∧
    ((GzipDecompressor.throw_gzip_error envW "close failed" (-1)).gzip_error_code =
        envW.gzclose_result ∧
      (GzipDecompressor.throw_gzip_error envW "close failed" (-1)).system_errno =
        if (GzipDecompressor.throw_gzip_error envW "close failed" (-1)).gzip_error_code =
          Z_ERRNO then envW.errno else 0) := by
  have h := C7_gzip_error_fields envW ⟨true⟩ ⟨true⟩ "a"
  exact ⟨h.1 _ (by rfl), h.2.1 _ (by rfl), h.2.2.1 _ (by rfl), h.2.2.2 _ (by rfl)⟩

/-! ## Claim C8 -/

theorem GzipCompressor.comp_close_clears (env : ZlibEnv) (st : GzipCompressor) :
    (GzipCompressor.close env st).1.m_gzfile = false := by
  unfold GzipCompressor.close
  split
  · dsimp only
    split <;> rfl
  · next h => simpa using h

theorem GzipCompressor.comp_close_noop (env : ZlibEnv) {st : GzipCompressor}
    (h : st.m_gzfile = false) : GzipCompressor.close env st = (st, none) := by
  unfold GzipCompressor.close
  simp [h]

theorem GzipDecompressor.decomp_close_clears (env : ZlibEnv) (st : GzipDecompressor) :
    (GzipDecompressor.close env st).1.m_gzfile = false := by
  unfold GzipDecompressor.close
  split
  · dsimp only
    split <;> rfl
  · next h => simpa using h

theorem GzipDecompressor.decomp_close_noop (env : ZlibEnv) {st : GzipDecompressor}
    (h : st.m_gzfile = false) : GzipDecompressor.close env st = (st, none) := by
  unfold GzipDecompressor.close
  simp [h]

/-- C8: `close()` is idempotent on both the compressor and the decompressor:
any `close()` call — succeeding or throwing, including the one run by the
destructor — leaves `m_gzfile` null, because the handle is cleared before
any error is raised; and `close()` on a state with a null handle is a no-op
that returns no error, under any zlib behaviour. -/
theorem C8_close_idempotent (env env2 : ZlibEnv) (stc : GzipCompressor)
    (std : GzipDecompressor) :
    ((GzipCompressor.close env stc).1.m_gzfile = false) ∧
    (GzipCompressor.close env2 (GzipCompressor.close env stc).1 =
      ((GzipCompressor.close env stc).1, none)) ∧
    (GzipCompressor.close env2 (GzipCompressor.dtorState env stc) =
      (GzipCompressor.dtorState env stc, none)) ∧
    ((GzipDecompressor.close env std).1.m_gzfile = false) ∧
    (GzipDecompressor.close env2 (GzipDecompressor.close env std).1 =
      ((GzipDecompressor.close env std).1, none)) ∧
    (GzipDecompressor.close env2 (GzipDecompressor.dtorState env std) =
      (GzipDecompressor.dtorState env std, none)) :=
  ⟨GzipCompressor.comp_close_clears env stc,
    GzipCompressor.comp_close_noop env2 (GzipCompressor.comp_close_clears env stc),
    GzipCompressor.comp_close_noop env2 (GzipCompressor.comp_close_clears env stc),
    GzipDecompressor.decomp_close_clears env std,
    GzipDecompressor.decomp_close_noop env2 (GzipDecompressor.decomp_close_clears env std),
    GzipDecompressor.decomp_close_noop env2 (GzipDecompressor.decomp_close_clears env std)⟩

/-! ## Claim C10 -/

/-- C10: `GzipCompressor::write` with an empty string performs no underlying
write and never raises an error, leaving the compressor state unchanged; for
a non-empty string it raises a `gzip_error` exactly when the underlying
`gzwrite` call returns zero.  The state is unchanged in every case. -/
theorem C10_write_empty_or_gzwrite (env : ZlibEnv) (st : GzipCompressor)
    (data : String) :
    (data = "" → GzipCompressor.write env st data = (st, none)) ∧
    (data ≠ "" →
      (((GzipCompressor.write env st data).2).isSome ↔
        env.gzwrite_result data = 0)) ∧
    (GzipCompressor.write env st data).1 = st := by
  refine ⟨?_, ?_, ?_⟩
  · intro h
    unfold GzipCompressor.write
    simp [h]
  · intro h
    unfold GzipCompressor.write
    simp only [h, if_false]
    by_cases hw : env.gzwrite_result data = 0
    · simp [hw]
    · simp [hw]
  · unfold GzipCompressor.write
    split
    · rfl
    · dsimp only
      split <;> rfl

/-- C10 witness: the empty-string case and the failing non-empty case on the
concrete environment `envW`. -/
theorem C10_write_empty_or_gzwrite_witness :
    GzipCompressor.write envW ⟨true⟩ "" = (⟨true⟩, none) ∧
    (((GzipCompressor.write envW ⟨true⟩ "a").2).isSome ↔
      envW.gzwrite_result "a" = 0) :=
  ⟨(C10_write_empty_or_gzwrite envW ⟨true⟩ "").1 rfl,
    (C10_write_empty_or_gzwrite envW ⟨true⟩ "a").2.1 (by decide)⟩

/-! ## ObjectPointerCollection (from include/osmium/osm/object_pointer_collection.hpp)

`m_objects` is a vector of pointers to OSM objects living in buffers owned
elsewhere.  Pointers are modelled as indices into an immutable heap
function; the collection state never contains the objects themselves.
`std::sort(m_objects.begin(), m_objects.end(), T())` is modelled by merge
sort of the pointer list under the functor's comparison of the pointed-to
objects — any comparison-sort model suffices for the claim, which is about
permutation, not the resulting order. -/

/-- The pointer vector `std::vector<osmium::Object*> m_objects`. -/
structure ObjectPointerCollection where
  m_objects : List Nat
deriving DecidableEq, Repr

/-- `operator()(osmium::Object&)`: push the object's address. -/
def ObjectPointerCollection.visit (c : ObjectPointerCollection) (ptr : Nat) :
    ObjectPointerCollection :=
  ⟨c.m_objects ++ [ptr]⟩

/-- A pointer collection together with the heap of objects the pointers
refer to.  The heap stands for the buffers that own the objects; the
collection does not own or copy them. -/
structure OPCState (Object : Type) where
  heap : Nat → Object
  coll : ObjectPointerCollection

/-- `ObjectPointerCollection::sort<T>()`: sorts only the pointer vector,
comparing pointed-to objects by the order functor; the heap (the objects
themselves) is not touched. -/
def OPCState.sortBy {Object : Type} (cmp : Object → Object → Bool)
    (s : OPCState Object) : OPCState Object :=
  { heap := s.heap
    coll := ⟨s.coll.m_objects.mergeSort (fun p q => cmp (s.heap p) (s.heap q))⟩ }

/-- Iterating `begin()..end()` with the indirect iterator: visits the
pointed-to objects in pointer order, as if iterating the objects
themselves. -/
def OPCState.iterate {Object : Type} (s : OPCState Object) : List Object :=
  s.coll.m_objects.map s.heap

/-- C9: `sort<T>()` only permutes the stored pointers — the pointer list
after sorting is a permutation of the one before, the referenced objects
(the heap) are untouched (neither modified nor copied), and iterating with
`begin()/end()` after the sort visits exactly the pointed-to objects in the
new pointer order; consequently the multiset of objects visited is the same
before and after. -/
theorem C9_sort_permutes {Object : Type} (s : OPCState Object)
    (cmp : Object → Object → Bool) :
    (s.sortBy cmp).heap = s.heap ∧
    ((s.sortBy cmp).coll.m_objects).Perm s.coll.m_objects ∧
    (s.sortBy cmp).iterate = ((s.sortBy cmp).coll.m_objects).map s.heap ∧
    ((s.sortBy cmp).iterate).Perm s.iterate := by
  have hperm : ((s.sortBy cmp).coll.m_objects).Perm s.coll.m_objects :=
    List.mergeSort_perm s.coll.m_objects _
  exact ⟨rfl, hperm, rfl, hperm.map s.heap⟩
